/-
  Verification of the incoming-scan ingestion pipeline of the photoalbums
  repository, shallowly embedded in Lean 4.

  The embedding models filenames and log lines as `List Char` (Python strings,
  at ASCII level: regex character classes `\d` and case folding are modelled on
  ASCII, which covers every name the pipeline itself produces), directory
  contents as a list of entry names, and the effectful steps of an ingestion
  unit (rename, TIFF conversion, pixel comparison, stitching) as explicit
  oracle records describing the outcome of each external invocation, exactly
  following the control flow of src/common.py and
  src/incoming_scans_watcher.py.
-/
import Mathlib

/-! ## Characters, digits, strings -/

/-- Numeric value of an ASCII digit character (`int` of a digit). -/
def digitVal (c : Char) : Nat := c.toNat - 48

/-- `int()` of a run of decimal digit characters. -/
def natOfDigits (ds : List Char) : Nat := ds.foldl (fun n c => 10 * n + digitVal c) 0

/-- Python `str.lower()` (ASCII level). -/
def lowerStr (s : List Char) : List Char := s.map Char.toLower

/-! ## Filename grammar: FILENAME_PATTERN of src/common.py

`^(?P<prefix>.+)_P(?P<page>\d{2})_S(?P<scan>\d{2})\.tif$` with IGNORECASE.
The part after the greedy `.+` group has fixed length 12, so a name matches
iff its last 12 characters have the literal shape below and the (nonempty)
remainder contains no newline (`.` does not match a newline). -/

structure ScanName where
  stem : List Char
  page : Nat
  scan : Nat
deriving DecidableEq, Repr

/-- Parser for FILENAME_PATTERN, working on the REVERSED character list
(the fixed-length tail of the name comes first). -/
def parseScanRev : List Char → Option ScanName
  | fc :: ic :: tc :: dc :: e2 :: e1 :: sc :: v2 :: d2 :: d1 :: pc :: v1 :: rest =>
    if dc = '.' ∧ (fc = 'f' ∨ fc = 'F') ∧ (ic = 'i' ∨ ic = 'I') ∧ (tc = 't' ∨ tc = 'T')
        ∧ e1.isDigit = true ∧ e2.isDigit = true ∧ (sc = 'S' ∨ sc = 's') ∧ v2 = '_'
        ∧ d1.isDigit = true ∧ d2.isDigit = true ∧ (pc = 'P' ∨ pc = 'p') ∧ v1 = '_'
        ∧ rest ≠ [] ∧ (∀ c ∈ rest, c ≠ '\n')
    then some ⟨rest.reverse, 10 * digitVal d1 + digitVal d2, 10 * digitVal e1 + digitVal e2⟩
    else none
  | _ => none

/-- `FILENAME_PATTERN.match(name)`: the parsed prefix/page/scan, or `none`. -/
def parseScanName (name : List Char) : Option ScanName := parseScanRev name.reverse

/-! ## pathlib suffix (Path.suffix), needed for the `.tif` pre-filters -/

/-- On a REVERSED name: split at the first `'.'` (i.e. the last dot of the
name), returning (reversed extension, reversed stem). -/
def rsplitDot : List Char → Option (List Char × List Char)
  | [] => none
  | c :: rest =>
    if c = '.' then some ([], rest)
    else (rsplitDot rest).map (fun q => (c :: q.1, q.2))

/-- `Path(name).suffix.lower()` on a reversed name: empty unless the last dot
has at least one character on each side (CPython: `0 < i < len(name) - 1`). -/
def pySuffixLowerRev (r : List Char) : List Char :=
  match rsplitDot r with
  | none => []
  | some q =>
    if q.2.isEmpty || q.1.isEmpty then []
    else ('.' :: q.1.reverse).map Char.toLower

/-- `Path(name).suffix.lower()`. -/
def pySuffixLower (name : List Char) : List Char := pySuffixLowerRev name.reverse

/-- The pre-filter of get_next_filename: `f.suffix.lower() == ".tif"`. -/
def pyTifLowerB (name : List Char) : Bool := pySuffixLower name == ".tif".toList

/-- The pre-filter of list_page_scans_for_page:
`entry.suffix.lower() in {".tif", ".tiff"}`. -/
def pyTifOrTiffB (name : List Char) : Bool :=
  pySuffixLower name == ".tif".toList || pySuffixLower name == ".tiff".toList

/-! ## Formatting canonical names -/

/-- Python `f"{n:02d}"`: decimal digits, left-padded with '0' to width 2. -/
def pad2 (n : Nat) : List Char :=
  let ds := Nat.toDigits 10 n
  if ds.length < 2 then '0' :: ds else ds

/-- `f"{prefix}_P{page:02d}_S{scan:02d}.tif"`. -/
def formatScanName (stem : List Char) (page scan : Nat) : List Char :=
  stem ++ '_' :: 'P' :: (pad2 page ++ '_' :: 'S' :: (pad2 scan ++ ".tif".toList))

/-- derive_prefix of src/common.py: the watch directory's base name, with a
trailing case-insensitive `_Archive` stripped. -/
def derive_prefix_of (base : List Char) : List Char :=
  if (lowerStr base).reverse.take 8 = "_archive".toList.reverse ∧ 8 ≤ base.length
  then base.take (base.length - 8) else base

/-! ## Lexicographic maximum (Python `list.sort()` + `[-1]` on strings) -/

/-- Python string `<` (code-point lexicographic order). -/
def strLtB : List Char → List Char → Bool
  | [], [] => false
  | [], _ :: _ => true
  | _ :: _, [] => false
  | a :: as, b :: bs => if a < b then true else if b < a then false else strLtB as bs

def lexMaxFrom (a : List Char) : List (List Char) → List Char
  | [] => a
  | b :: rest => lexMaxFrom (if strLtB a b then b else a) rest

/-- The last element of the ascending string sort: the lexicographic maximum
(sorting ascending and indexing `[-1]` yields a maximum of the list). -/
def lexMax? : List (List Char) → Option (List Char)
  | [] => none
  | v :: vs => some (lexMaxFrom v vs)

/-! ## Filename Sequencer: get_next_filename of src/common.py -/

/-- The files get_next_filename considers: `.tif`-suffixed entries whose name
matches FILENAME_PATTERN. -/
def validTifFiles (files : List (List Char)) : List (List Char) :=
  (files.filter pyTifLowerB).filter (fun f => (parseScanName f).isSome)

/-- The files the spec's reference algorithm considers: every name matching
the grammar. -/
def grammarFiles (files : List (List Char)) : List (List Char) :=
  files.filter (fun f => (parseScanName f).isSome)

/-- get_next_filename of src/common.py, over the directory's base name and its
entry names. -/
def get_next_filename (dirBase : List Char) (files : List (List Char)) : List Char :=
  match lexMax? (validTifFiles files) with
  | none => formatScanName (derive_prefix_of dirBase) 1 1
  | some last =>
    match parseScanName last with
    | none => formatScanName (derive_prefix_of dirBase) 1 1
    | some s =>
      if s.page = 1 then formatScanName s.stem 2 1
      else if s.scan < 2 then formatScanName s.stem s.page (s.scan + 1)
      else formatScanName s.stem (s.page + 1) 1

/-- The spec's reference `nextName` algorithm (§4.2), written from the spec's
words: list the grammar-matching names, fall back to page 1 scan 1 when none,
otherwise advance from the lexicographically greatest one. The inner `none`
arm is unreachable (the maximum of grammar-matching names matches the
grammar) and mirrors the same unreachable arm of the code embedding. -/
def nextName_spec (dirBase : List Char) (files : List (List Char)) : List Char :=
  match lexMax? (grammarFiles files) with
  | none => formatScanName (derive_prefix_of dirBase) 1 1
  | some last =>
    match parseScanName last with
    | none => formatScanName (derive_prefix_of dirBase) 1 1
    | some s =>
      if s.page = 1 then formatScanName s.stem 2 1
      else if s.scan < 2 then formatScanName s.stem s.page (s.scan + 1)
      else formatScanName s.stem (s.page + 1) 1

/-! ## PAGE_SCAN_RE: `_P(\d+)_S(\d+)` with IGNORECASE, via re.search -/

/-- Attempt a match of `_P(\d+)_S(\d+)` anchored at the head of the list.
`\d+` is greedy; since a digit is never `'_'`, the maximal digit run is the
only candidate, so no backtracking is needed. -/
def matchPageScanAt : List Char → Option (Nat × Nat)
  | v1 :: pc :: rest =>
    if v1 = '_' ∧ (pc = 'P' ∨ pc = 'p') then
      let ds := rest.takeWhile Char.isDigit
      if ds.isEmpty then none
      else
        match rest.dropWhile Char.isDigit with
        | v2 :: sc :: rest2 =>
          if v2 = '_' ∧ (sc = 'S' ∨ sc = 's') then
            let es := rest2.takeWhile Char.isDigit
            if es.isEmpty then none
            else some (natOfDigits ds, natOfDigits es)
          else none
        | _ => none
    else none
  | _ => none

/-- `PAGE_SCAN_RE.search(s)`: leftmost match. -/
def pageScanSearch : List Char → Option (Nat × Nat)
  | [] => none
  | c :: rest =>
    match matchPageScanAt (c :: rest) with
    | some r => some r
    | none => pageScanSearch rest

/-- The sort key of list_page_scans_for_page:
`int(m.group("scan")) if m else 0`, with the search running on the full path
string. -/
def scanPathKey (path : List Char) : Nat :=
  match pageScanSearch path with
  | some q => q.2
  | none => 0

/-- A path prefix that can neither host nor begin a `_P(\d+)_S(\d+)` match:
no underscore in it is followed (within it) by `P` or `p`, and it does not end
in an underscore. Every canonical watch-directory path satisfies this — e.g.
`Albums/EU_1973_B02_Archive/`, whose underscores precede `1`, `B` and `A` —
while a path violating it could itself supply the leftmost PAGE_SCAN_RE match
of a full path and genuinely change the code's sort key and retry scan
number. -/
def pathSepSafe : List Char → Bool
  | [] => true
  | [c] => c != '_'
  | c :: c2 :: rest =>
    (if c = '_' then c2 != 'P' && c2 != 'p' else true) && pathSepSafe (c2 :: rest)

/-! ## Stable sort by a Nat key (Python `list.sort(key=...)`) -/

def insertByNatKey {α : Type} (key : α → Nat) (x : α) : List α → List α
  | [] => [x]
  | y :: ys => if key x ≤ key y then x :: y :: ys else y :: insertByNatKey key x ys

/-- Stable insertion sort, ascending by `key`. -/
def sortByNatKey {α : Type} (key : α → Nat) : List α → List α
  | [] => []
  | x :: xs => insertByNatKey key x (sortByNatKey key xs)

/-- Maximum of `key` over a list (0 when empty). -/
def maxKeyList {α : Type} (key : α → Nat) (l : List α) : Nat :=
  l.foldr (fun x m => max (key x) m) 0

/-! ## list_page_scans_for_page of src/common.py -/

/-- Keep entries with a `.tif`/`.tiff` suffix whose name's leftmost
`_P…_S…` match has the requested page number. -/
def pageScanPred (p : Nat) (f : List Char) : Bool :=
  pyTifOrTiffB f
    && (match pageScanSearch f with
        | some q => q.1 == p
        | none => false)

/-- list_page_scans_for_page: filter the directory's entry names by page,
turn them into full paths (`dirStr` is the watch-directory path including its
trailing separator), and sort by the scan number found in the path. -/
def list_page_scans_for_page (dirStr : List Char) (files : List (List Char)) (p : Nat) :
    List (List Char) :=
  sortByNatKey scanPathKey ((files.filter (pageScanPred p)).map (fun f => dirStr ++ f))

/-! ## Atomic installer: rename_with_retry of src/common.py -/

/-- Outcome of one attempted filesystem operation (`os.rename` or
`Path.replace`). -/
inductive FsAttempt where
  | succeeds
  | permissionError
  | fileNotFoundError
  | otherError
deriving DecidableEq, Repr

structure RetryResult where
  ok : Bool
  attemptsMade : Nat
  sleeps : Nat
deriving DecidableEq, Repr

/-- Default attempt count of rename_with_retry: `attempts: int = 30`. -/
def rename_attempts_default : Nat := 30

/-- Default delay of rename_with_retry in seconds: `delay: float = 1.0`. -/
def rename_delay : ℚ := 1

/-- The retry loop of rename_with_retry: PermissionError and
FileNotFoundError sleep `delay` and retry; any other exception breaks out
immediately; exhaustion returns failure. -/
def renameGo (outcomes : Nat → FsAttempt) : Nat → Nat → Nat → RetryResult
  | 0, made, slept => ⟨false, made, slept⟩
  | fuel + 1, made, slept =>
    match outcomes made with
    | .succeeds => ⟨true, made + 1, slept⟩
    | .permissionError => renameGo outcomes fuel (made + 1) (slept + 1)
    | .fileNotFoundError => renameGo outcomes fuel (made + 1) (slept + 1)
    | .otherError => ⟨false, made + 1, slept⟩

/-- rename_with_retry over a trace of per-attempt outcomes. -/
def rename_with_retry (outcomes : Nat → FsAttempt) : RetryResult :=
  renameGo outcomes rename_attempts_default 0 0

/-! ## Tiff Normalizer: src/common.py -/

/-- Default replace attempt count of process_tiff_in_place:
`replace_attempts: int = 10`. -/
def replace_attempts_default : Nat := 10

/-- Default replace delay of process_tiff_in_place in seconds:
`replace_delay: float = 0.5`. -/
def replace_delay : ℚ := 1 / 2

/-- The replace loop of process_tiff_in_place: ONLY PermissionError sleeps
and retries; every other exception (FileNotFoundError included, caught by the
generic `except Exception`) breaks out immediately. -/
def replaceGo (outcomes : Nat → FsAttempt) : Nat → Nat → Nat → RetryResult
  | 0, made, slept => ⟨false, made, slept⟩
  | fuel + 1, made, slept =>
    match outcomes made with
    | .succeeds => ⟨true, made + 1, slept⟩
    | .permissionError => replaceGo outcomes fuel (made + 1) (slept + 1)
    | .fileNotFoundError => ⟨false, made + 1, slept⟩
    | .otherError => ⟨false, made + 1, slept⟩

/-- Encoding attributes reported by the exiftool inspection. -/
structure TiffAttrs where
  hasAlpha : Bool
  compressionLzw : Bool
  predictorHorizontal : Bool
deriving DecidableEq, Repr

/-- tiff_needs_conversion: any inspection failure counts as needing
conversion; otherwise alpha present, or non-LZW compression, or a predictor
other than horizontal differencing. -/
def tiff_needs_conversion (inspectFails : Bool) (a : TiffAttrs) : Bool :=
  if inspectFails then true
  else a.hasAlpha || !a.compressionLzw || !a.predictorHorizontal

/-- validate_pixels: the `magick compare -metric AE` diff count parsed from
stderr (`none` models an invocation/parse failure, which returns False). -/
def validate_pixels (compareResult : Option Nat) : Bool :=
  match compareResult with
  | some diffCount => diffCount == 0
  | none => false

/-- What became of the temporary converted file. -/
inductive TempFate where
  | notCreated
  | deleted
  | movedToOriginal
  | leaked
deriving DecidableEq, Repr

/-- Oracle for one run of process_tiff_in_place. -/
structure TiffEnv where
  inspectFails : Bool
  attrs : TiffAttrs
  convertRaises : Bool
  convertedContent : Nat
  compareResult : Option Nat
  replaceOutcomes : Nat → FsAttempt

structure TiffRun where
  ok : Bool
  finalContent : Nat
  writes : Nat
  temp : TempFate
  replaceAttempts : Nat
  replaceSleeps : Nat
deriving DecidableEq, Repr

/-- process_tiff_in_place of src/common.py over the oracle and the abstract
content of the original file. -/
def process_tiff_in_place (env : TiffEnv) (content : Nat) : TiffRun :=
  if tiff_needs_conversion env.inspectFails env.attrs = false then
    ⟨true, content, 0, .notCreated, 0, 0⟩
  else if env.convertRaises then
    ⟨false, content, 0, .deleted, 0, 0⟩
  else if validate_pixels env.compareResult = false then
    ⟨false, content, 0, .deleted, 0, 0⟩
  else
    let r := replaceGo env.replaceOutcomes replace_attempts_default 0 0
    if r.ok then ⟨true, env.convertedContent, 1, .movedToOriginal, r.attemptsMade, r.sleeps⟩
    else ⟨false, content, 0, .leaked, r.attemptsMade, r.sleeps⟩

/-! ## Stitch Validator -/

/-- One configuration of the ladder: detector name and confidence
threshold. -/
abbrev StitchConfig := List Char × ℚ

def stitch_configs : List StitchConfig :=
  [("sift".toList, (3 : ℚ) / 10), ("brisk".toList, (1 : ℚ) / 10)]

/-- Outcome of one `AffineStitcher(**cfg).stitch(files)` call: whether it
raised, the returned panorama (`none` = returned None, otherwise its `size`),
and whether the library's side-channel warning "not all images are included
in the final panorama" was emitted. -/
structure StitchAttempt where
  raises : Bool
  result : Option Nat
  warnedNotAllIncluded : Bool
deriving DecidableEq, Repr

/-- The attempt loop of validate_stitch in src/incoming_scans_watcher.py:
success on the first configuration whose call does not raise and returns a
result with nonzero size. The side-channel warning is never consulted. -/
def validateGo : List StitchAttempt → Bool
  | [] => false
  | a :: rest =>
    if a.raises then validateGo rest
    else
      match a.result with
      | some size => if size ≠ 0 then true else validateGo rest
      | none => validateGo rest

/-- validate_stitch of src/incoming_scans_watcher.py (its Bool component;
fewer than two files trivially succeed). -/
def validate_stitch (oracle : StitchConfig → StitchAttempt) (files : List (List Char)) : Bool :=
  if files.length < 2 then true
  else validateGo (stitch_configs.map oracle)

inductive BatchOutcome where
  | ok
  | panoramaIncomplete
  | allFailed
deriving DecidableEq, Repr

/-- The attempt loop of validate_stitch in
src/stitch_oversized_pages_validate.py, carrying its `result` and
`partial_warning` variables: a warned call resets the result and records the
warning; an unwarned call overwrites the recorded warning; a raising call
leaves both untouched; a nonzero-size result breaks out as success. -/
def batchGo : List StitchAttempt → Option Nat → Bool → BatchOutcome
  | [], res, warned =>
    (match res with
     | some _ => .ok
     | none => if warned then .panoramaIncomplete else .allFailed)
  | a :: rest, res, warned =>
    if a.raises then batchGo rest res warned
    else if a.warnedNotAllIncluded then batchGo rest none true
    else
      match a.result with
      | some size => if size ≠ 0 then .ok else batchGo rest (some size) false
      | none => batchGo rest none false

/-- validate_stitch of src/stitch_oversized_pages_validate.py, as the
outcome it raises/returns. -/
def validate_stitch_batch (oracle : StitchConfig → StitchAttempt) : BatchOutcome :=
  batchGo (stitch_configs.map oracle) none false

/-- A stitcher whose every configuration produces a structurally valid
panorama of nonzero size while warning that not every input image was
included (a partial panorama). -/
def incompleteStitchOracle : StitchConfig → StitchAttempt :=
  fun _ => ⟨false, some 100, true⟩

/-! ## Event Dispatcher: IncomingScanHandler of src/incoming_scans_watcher.py -/

def INCOMING_NAME : List Char := "incoming_scan.tif".toList

def okLine (n : List Char) : List Char := n ++ " OK".toList

def errorLine (n : List Char) : List Char := n ++ " ERROR".toList

def stitchFailedLine (n : List Char) : List Char := n ++ " STITCH FAILED".toList

def endsWithStr (l suffixStr : List Char) : Bool := suffixStr.reverse.isPrefixOf l.reverse

/-- A terminal status line: one ending in " OK", " ERROR" or
" STITCH FAILED". -/
def isTerminalLine (l : List Char) : Bool :=
  endsWithStr l (" OK".toList)
    || endsWithStr l (" ERROR".toList)
    || endsWithStr l (" STITCH FAILED".toList)

structure IncomingEvent where
  isDirectory : Bool
  baseName : List Char
deriving DecidableEq, Repr

/-- Oracle for the effectful steps of one ingestion unit: the injected
rename_fn / process_tiff_fn / validate_stitch_fn outcomes, together with the
diagnostic lines those two may log through log_error. -/
structure DispatchEnv where
  renameOk : Bool
  renameDiags : List (List Char)
  processOk : Bool
  processDiags : List (List Char)
  stitchOk : Bool
deriving DecidableEq, Repr

structure StepResult where
  retryPage : Option Nat
  files : List (List Char)
  logs : List (List Char)
  alerts : Nat
  processCalled : Bool
  stitchCalled : Bool
  target : Option (List Char)
deriving DecidableEq, Repr

/-- IncomingScanHandler._get_retry_filename: next scan slot for the retried
page — last of the page's sorted scans plus one, or scan 1 when the page has
no scans. -/
def get_retry_filename (dirStr dirBase : List Char) (files : List (List Char)) (p : Nat) :
    List Char :=
  let fs := list_page_scans_for_page dirStr files p
  let scan : Nat :=
    match fs.getLast? with
    | none => 1
    | some last =>
      (match pageScanSearch last with
       | some q => q.2
       | none => 1) + 1
  formatScanName (derive_prefix_of dirBase) p scan

/-- The canonical name an ingestion event will install: the retry slot when
the directory is awaiting a rescan, the sequencer's next name otherwise. -/
def dispatchTarget (dirStr dirBase : List Char) (retryPage : Option Nat)
    (files : List (List Char)) : List Char :=
  match retryPage with
  | some p => get_retry_filename dirStr dirBase files p
  | none => get_next_filename dirBase files

def skipStep (retryPage : Option Nat) (files : List (List Char)) : StepResult :=
  ⟨retryPage, files, [], 0, false, false, none⟩

/-- IncomingScanHandler.on_created over one watch directory. `dirStr` is the
watch-directory path including its trailing separator (full paths are
`dirStr ++ name`); `dirBase` is the directory's base name; `files` is the
directory's listing without the sentinel file. Viewer launch and preview
cleanup are side effects with no bearing on state, logs or alerts and are not
modelled. -/
def on_created (dirStr dirBase : List Char) (env : DispatchEnv) (ev : IncomingEvent)
    (retryPage : Option Nat) (files : List (List Char)) : StepResult :=
  if ev.isDirectory then skipStep retryPage files
  else if lowerStr ev.baseName ≠ lowerStr INCOMING_NAME then skipStep retryPage files
  else
    let nn := dispatchTarget dirStr dirBase retryPage files
    if env.renameOk = false then
      ⟨retryPage, files, env.renameDiags, 0, false, false, some nn⟩
    else
      let files2 := nn :: files
      if env.processOk = false then
        ⟨retryPage, files2, env.processDiags ++ [errorLine nn], 0, true, false, some nn⟩
      else
        match pageScanSearch nn with
        | none => ⟨retryPage, files2, [okLine nn], 0, true, false, some nn⟩
        | some q =>
          if 2 ≤ (list_page_scans_for_page dirStr files2 q.1).length then
            if env.stitchOk then
              ⟨if retryPage = some q.1 then none else retryPage, files2,
                [okLine nn], 0, true, true, some nn⟩
            else
              ⟨some q.1, files2, [stitchFailedLine nn], 1, true, true, some nn⟩
          else ⟨retryPage, files2, [okLine nn], 0, true, false, some nn⟩

/-! # Lemmas and claim theorems -/

lemma parseRev_suffix (r : List Char) (h : (parseScanRev r).isSome = true) :
    pySuffixLowerRev r = ".tif".toList := by
  rcases r with _ | ⟨fc, _ | ⟨ic, _ | ⟨tc, _ | ⟨dc, _ | ⟨e2, _ | ⟨e1, _ | ⟨sc, _ | ⟨v2, _ | ⟨d2, _ | ⟨d1, _ | ⟨pc, _ | ⟨v1, rest⟩⟩⟩⟩⟩⟩⟩⟩⟩⟩⟩⟩
  case nil => simp [parseScanRev] at h
  case cons.nil => simp [parseScanRev] at h
  case cons.cons.nil => simp [parseScanRev] at h
  case cons.cons.cons.nil => simp [parseScanRev] at h
  case cons.cons.cons.cons.nil => simp [parseScanRev] at h
  case cons.cons.cons.cons.cons.nil => simp [parseScanRev] at h
  case cons.cons.cons.cons.cons.cons.nil => simp [parseScanRev] at h
  case cons.cons.cons.cons.cons.cons.cons.nil => simp [parseScanRev] at h
  case cons.cons.cons.cons.cons.cons.cons.cons.nil => simp [parseScanRev] at h
  case cons.cons.cons.cons.cons.cons.cons.cons.cons.nil => simp [parseScanRev] at h
  case cons.cons.cons.cons.cons.cons.cons.cons.cons.cons.nil => simp [parseScanRev] at h
  case cons.cons.cons.cons.cons.cons.cons.cons.cons.cons.cons.nil => simp [parseScanRev] at h
  case cons.cons.cons.cons.cons.cons.cons.cons.cons.cons.cons.cons =>
    unfold parseScanRev at h
    rw [Option.isSome_iff_exists] at h
    obtain ⟨a, ha⟩ := h
    rw [ite_eq_iff] at ha
    rcases ha with ⟨hc, -⟩ | ⟨-, hnone⟩
    · obtain ⟨hdc, hfc, hic, htc, he1, he2, hsc, hv2, hd1, hd2, hpc, hv1, hrest, hnl⟩ := hc
      subst hdc
      rcases hfc with rfl | rfl <;> rcases hic with rfl | rfl <;> rcases htc with rfl | rfl <;>
        simp [pySuffixLowerRev, rsplitDot]
    · exact absurd hnone (by simp)

lemma parse_isSome_tif (f : List Char) (h : (parseScanName f).isSome = true) :
    pyTifLowerB f = true := by
  have hs := parseRev_suffix f.reverse h
  unfold pyTifLowerB pySuffixLower
  rw [hs]
  simp

/-- C5: get_next_filename equals the spec's reference nextName algorithm on
every directory: the `.tif`-suffix pre-filter is absorbed by the grammar
match (every grammar-matching name has suffix `.tif`), and the two advance
rules coincide. -/
theorem c5_get_next_filename_matches_spec (dirBase : List Char) (files : List (List Char)) :
    get_next_filename dirBase files = nextName_spec dirBase files := by
  have hfilters : validTifFiles files = grammarFiles files := by
    unfold validTifFiles grammarFiles
    rw [List.filter_filter]
    apply List.filter_congr
    intro f _
    cases hp : (parseScanName f).isSome with
    | false => simp [hp]
    | true => simp [hp, parse_isSome_tif f hp]
  unfold get_next_filename nextName_spec
  rw [hfilters]

/-! ## Sorted-list and page-scan lemmas -/

lemma mem_insertByNatKey {α : Type} {key : α → Nat} {x y : α} :
    ∀ {l : List α}, y ∈ insertByNatKey key x l → y = x ∨ y ∈ l := by
  intro l
  induction l with
  | nil =>
    intro h
    simp [insertByNatKey] at h
    exact Or.inl h
  | cons a t ih =>
    intro h
    unfold insertByNatKey at h
    split at h
    · rcases List.mem_cons.mp h with h1 | h1
      · exact Or.inl h1
      · exact Or.inr h1
    · rcases List.mem_cons.mp h with h1 | h1
      · exact Or.inr (h1 ▸ List.mem_cons_self a t)
      · rcases ih h1 with h2 | h2
        · exact Or.inl h2
        · exact Or.inr (List.mem_cons_of_mem a h2)

lemma mem_sortByNatKey {α : Type} {key : α → Nat} {y : α} :
    ∀ {l : List α}, y ∈ sortByNatKey key l → y ∈ l := by
  intro l
  induction l with
  | nil => intro h; simp [sortByNatKey] at h
  | cons a t ih =>
    intro h
    unfold sortByNatKey at h
    rcases mem_insertByNatKey h with h1 | h1
    · exact h1 ▸ List.mem_cons_self a t
    · exact List.mem_cons_of_mem a (ih h1)

lemma head?_insertByNatKey {α : Type} (key : α → Nat) (x : α) (l : List α) :
    (insertByNatKey key x l).head? = some x ∨ (insertByNatKey key x l).head? = l.head? := by
  cases l with
  | nil => left; rfl
  | cons y ys =>
    unfold insertByNatKey
    split
    · left; rfl
    · right; rfl

lemma chain'_insertByNatKey {α : Type} {key : α → Nat} (x : α) :
    ∀ {l : List α}, List.Chain' (fun a b => key a ≤ key b) l →
      List.Chain' (fun a b => key a ≤ key b) (insertByNatKey key x l) := by
  intro l
  induction l with
  | nil => intro _; simp [insertByNatKey]
  | cons y ys ih =>
    intro h
    unfold insertByNatKey
    split
    · rename_i hxy
      exact List.chain'_cons.mpr ⟨hxy, h⟩
    · rename_i hxy
      have hins := ih h.tail
      apply List.chain'_cons'.mpr
      refine ⟨?_, hins⟩
      intro z hz
      rcases head?_insertByNatKey key x ys with h1 | h1
      · rw [h1] at hz
        have hzx : x = z := by simpa using hz
        cases hzx
        exact Nat.le_of_not_le hxy
      · rw [h1] at hz
        exact (List.chain'_cons'.mp h).1 z hz

lemma chain'_sortByNatKey {α : Type} (key : α → Nat) :
    ∀ (l : List α), List.Chain' (fun a b => key a ≤ key b) (sortByNatKey key l) := by
  intro l
  induction l with
  | nil => simp [sortByNatKey]
  | cons a t ih => exact chain'_insertByNatKey a ih

lemma mem_of_getLastQ {α : Type} : ∀ {l : List α} {z : α}, l.getLast? = some z → z ∈ l := by
  intro l
  induction l with
  | nil => intro z h; simp at h
  | cons a t ih =>
    intro z h
    cases t with
    | nil =>
      have : a = z := by simpa using h
      exact this ▸ List.mem_cons_self a []
    | cons b t2 =>
      rw [List.getLast?_cons_cons] at h
      exact List.mem_cons_of_mem a (ih h)

lemma key_le_getLast {α : Type} {key : α → Nat} :
    ∀ {l : List α} {z : α}, List.Chain' (fun a b => key a ≤ key b) l →
      l.getLast? = some z → ∀ x ∈ l, key x ≤ key z := by
  intro l
  induction l with
  | nil => intro z _ h; simp at h
  | cons a t ih =>
    intro z hch hlast x hx
    cases t with
    | nil =>
      have haz : a = z := by simpa using hlast
      have hxa : x = a := by simpa using hx
      subst haz; subst hxa
      exact Nat.le_refl _
    | cons b t2 =>
      rw [List.getLast?_cons_cons] at hlast
      have h1 : key a ≤ key b := (List.chain'_cons.mp hch).1
      have h2 := (List.chain'_cons.mp hch).2
      rcases List.mem_cons.mp hx with rfl | hx2
      · exact Nat.le_trans h1 (ih h2 hlast b (List.mem_cons_self b t2))
      · exact ih h2 hlast x hx2

lemma maxKeyList_le {α : Type} {key : α → Nat} {b : Nat} :
    ∀ {l : List α}, (∀ x ∈ l, key x ≤ b) → maxKeyList key l ≤ b := by
  intro l
  induction l with
  | nil => intro _; exact Nat.zero_le b
  | cons a t ih =>
    intro h
    show max (key a) (maxKeyList key t) ≤ b
    exact Nat.max_le.mpr
      ⟨h a (List.mem_cons_self a t), ih (fun x hx => h x (List.mem_cons_of_mem a hx))⟩

lemma maxKeyList_eq_of {α : Type} {key : α → Nat} {z : α} :
    ∀ {l : List α}, z ∈ l → (∀ x ∈ l, key x ≤ key z) → maxKeyList key l = key z := by
  intro l
  induction l with
  | nil => intro h _; simp at h
  | cons a t ih =>
    intro hz hall
    show max (key a) (maxKeyList key t) = key z
    rcases List.mem_cons.mp hz with rfl | hz2
    · exact Nat.max_eq_left (maxKeyList_le (fun x hx => hall x (List.mem_cons_of_mem _ hx)))
    · rw [ih hz2 (fun x hx => hall x (List.mem_cons_of_mem _ hx))]
      exact Nat.max_eq_right (hall a (List.mem_cons_self a t))

lemma matchPageScanAt_head_ne {c : Char} {t : List Char} (h : c ≠ '_') :
    matchPageScanAt (c :: t) = none := by
  cases t with
  | nil => rfl
  | cons pc rest =>
    simp only [matchPageScanAt]
    rw [if_neg (fun hc => h hc.1)]

lemma matchPageScanAt_cond_ne {c c2 : Char} {t : List Char}
    (h : ¬(c = '_' ∧ (c2 = 'P' ∨ c2 = 'p'))) :
    matchPageScanAt (c :: c2 :: t) = none := by
  simp only [matchPageScanAt]
  rw [if_neg h]

lemma pageScanSearch_cons_none {c : Char} {t : List Char}
    (h : matchPageScanAt (c :: t) = none) :
    pageScanSearch (c :: t) = pageScanSearch t := by
  simp only [pageScanSearch]
  rw [h]

lemma pageScanSearch_append_safe {f : List Char} :
    ∀ {pre : List Char}, pathSepSafe pre = true →
      pageScanSearch (pre ++ f) = pageScanSearch f := by
  intro pre
  induction pre with
  | nil => intro _; rfl
  | cons c t ih =>
    intro h
    cases t with
    | nil =>
      have hc : c ≠ '_' := by simpa [pathSepSafe] using h
      exact pageScanSearch_cons_none (matchPageScanAt_head_ne hc)
    | cons c2 rest =>
      have h1 : (if c = '_' then c2 != 'P' && c2 != 'p' else true) = true
          ∧ pathSepSafe (c2 :: rest) = true := by
        simpa [pathSepSafe, Bool.and_eq_true] using h
      have hnone : matchPageScanAt (c :: c2 :: (rest ++ f)) = none := by
        by_cases hc : c = '_'
        · apply matchPageScanAt_cond_ne
          intro hcontra
          have hP := h1.1
          rw [if_pos hc] at hP
          simp [Bool.and_eq_true] at hP
          rcases hcontra.2 with rfl | rfl
          · exact hP.1 rfl
          · exact hP.2 rfl
        · exact matchPageScanAt_cond_ne (fun hx => hc hx.1)
      show pageScanSearch (c :: (c2 :: rest ++ f)) = pageScanSearch f
      exact (pageScanSearch_cons_none hnone).trans (ih h1.2)

lemma search_of_mem_scans {dirStr : List Char} {files : List (List Char)} {p : Nat}
    (hsafe : pathSepSafe dirStr = true) :
    ∀ z ∈ list_page_scans_for_page dirStr files p, ∃ s, pageScanSearch z = some (p, s) := by
  intro z hz
  unfold list_page_scans_for_page at hz
  have hz2 := mem_sortByNatKey hz
  obtain ⟨g, hg, rfl⟩ := List.mem_map.mp hz2
  have hpred : pageScanPred p g = true := List.of_mem_filter hg
  unfold pageScanPred at hpred
  simp only [Bool.and_eq_true] at hpred
  obtain ⟨-, h2⟩ := hpred
  rw [pageScanSearch_append_safe hsafe]
  cases hs : pageScanSearch g with
  | none => rw [hs] at h2; simp at h2
  | some q =>
    obtain ⟨q1, q2⟩ := q
    rw [hs] at h2
    simp at h2
    subst h2
    exact ⟨q2, rfl⟩

lemma get_retry_filename_eq_max {dirStr dirBase : List Char} {files : List (List Char)} {p : Nat}
    (hsafe : pathSepSafe dirStr = true)
    (hne : list_page_scans_for_page dirStr files p ≠ []) :
    get_retry_filename dirStr dirBase files p
      = formatScanName (derive_prefix_of dirBase) p
          (maxKeyList scanPathKey (list_page_scans_for_page dirStr files p) + 1) := by
  obtain ⟨z, hz⟩ : ∃ z, (list_page_scans_for_page dirStr files p).getLast? = some z := by
    have h1 : (list_page_scans_for_page dirStr files p).getLast?.isSome := by
      rw [List.getLast?_isSome]; exact hne
    exact Option.isSome_iff_exists.mp h1
  have hch : List.Chain' (fun a b => scanPathKey a ≤ scanPathKey b)
      (list_page_scans_for_page dirStr files p) := by
    unfold list_page_scans_for_page
    exact chain'_sortByNatKey scanPathKey _
  have hmem := mem_of_getLastQ hz
  have hmax : maxKeyList scanPathKey (list_page_scans_for_page dirStr files p) = scanPathKey z :=
    maxKeyList_eq_of hmem (key_le_getLast hch hz)
  obtain ⟨s, hs⟩ := search_of_mem_scans hsafe z hmem
  have hkey : scanPathKey z = s := by unfold scanPathKey; rw [hs]
  simp only [get_retry_filename]
  rw [hz]
  simp only [hs, hmax, hkey]

/-- C3: a watch directory in ADVANCING (no retry entry) whose ingestion event
installs and normalizes a scan, whose page then has at least two scans, and
whose stitch validation fails, transitions to AWAITING_RESCAN(page) with one
operator alert and the STITCH FAILED line; the next event's target name is a
new scan slot for that same page with scan number equal to the current
maximum scan of the page plus one (page unchanged). The watch-directory path
is assumed pathSepSafe — true of every canonical album path — since the code
keys its scan sort and retry scan number on PAGE_SCAN_RE.search over the full
path, and a path carrying a page marker of its own would change both. -/
theorem c3_stitch_failure_enters_awaiting_rescan
    (dirStr dirBase : List Char) (env : DispatchEnv) (ev : IncomingEvent)
    (files : List (List Char)) (p s2 : Nat)
    (hdir : ev.isDirectory = false)
    (hname : lowerStr ev.baseName = lowerStr INCOMING_NAME)
    (hren : env.renameOk = true) (hproc : env.processOk = true) (hst : env.stitchOk = false)
    (hsafe : pathSepSafe dirStr = true)
    (hsearch : pageScanSearch (get_next_filename dirBase files) = some (p, s2))
    (hlen : 2 ≤ (list_page_scans_for_page dirStr
        (get_next_filename dirBase files :: files) p).length) :
    (on_created dirStr dirBase env ev none files).retryPage = some p
    ∧ (on_created dirStr dirBase env ev none files).alerts = 1
    ∧ (on_created dirStr dirBase env ev none files).logs
        = [stitchFailedLine (get_next_filename dirBase files)]
    ∧ dispatchTarget dirStr dirBase (on_created dirStr dirBase env ev none files).retryPage
        (on_created dirStr dirBase env ev none files).files
      = formatScanName (derive_prefix_of dirBase) p
          (maxKeyList scanPathKey
            (list_page_scans_for_page dirStr
              (get_next_filename dirBase files :: files) p) + 1) := by
  have hr : on_created dirStr dirBase env ev none files
      = ⟨some p, get_next_filename dirBase files :: files,
         [stitchFailedLine (get_next_filename dirBase files)], 1, true, true,
         some (get_next_filename dirBase files)⟩ := by
    simp [on_created, dispatchTarget, hdir, hname, hren, hproc, hst, hsearch, hlen]
  have hne : list_page_scans_for_page dirStr (get_next_filename dirBase files :: files) p ≠ [] := by
    intro h0
    rw [h0] at hlen
    simp at hlen
  refine ⟨by rw [hr], by rw [hr], by rw [hr], ?_⟩
  rw [hr]
  show dispatchTarget dirStr dirBase (some p) (get_next_filename dirBase files :: files) = _
  unfold dispatchTarget
  exact get_retry_filename_eq_max hsafe hne

theorem c3_stitch_failure_enters_awaiting_rescan_witness :
    (on_created ("Albums/EU_1973_B02_Archive/".toList) ("EU_1973_B02_Archive".toList) ⟨true, [], true, [], false⟩
        ⟨false, "incoming_scan.tif".toList⟩ none [("EU_1973_B02_P02_S01.tif".toList)]).retryPage
      = some 2
    ∧ (on_created ("Albums/EU_1973_B02_Archive/".toList) ("EU_1973_B02_Archive".toList) ⟨true, [], true, [], false⟩
        ⟨false, "incoming_scan.tif".toList⟩ none [("EU_1973_B02_P02_S01.tif".toList)]).alerts = 1
    ∧ dispatchTarget ("Albums/EU_1973_B02_Archive/".toList) ("EU_1973_B02_Archive".toList)
        (on_created ("Albums/EU_1973_B02_Archive/".toList) ("EU_1973_B02_Archive".toList) ⟨true, [], true, [], false⟩
          ⟨false, "incoming_scan.tif".toList⟩ none [("EU_1973_B02_P02_S01.tif".toList)]).retryPage
        (on_created ("Albums/EU_1973_B02_Archive/".toList) ("EU_1973_B02_Archive".toList) ⟨true, [], true, [], false⟩
          ⟨false, "incoming_scan.tif".toList⟩ none [("EU_1973_B02_P02_S01.tif".toList)]).files
      = formatScanName (derive_prefix_of ("EU_1973_B02_Archive".toList)) 2
          (maxKeyList scanPathKey
            (list_page_scans_for_page ("Albums/EU_1973_B02_Archive/".toList)
              (get_next_filename ("EU_1973_B02_Archive".toList) [("EU_1973_B02_P02_S01.tif".toList)]
                :: [("EU_1973_B02_P02_S01.tif".toList)]) 2) + 1) := by
  have h := c3_stitch_failure_enters_awaiting_rescan ("Albums/EU_1973_B02_Archive/".toList) ("EU_1973_B02_Archive".toList)
      ⟨true, [], true, [], false⟩ ⟨false, "incoming_scan.tif".toList⟩
      [("EU_1973_B02_P02_S01.tif".toList)] 2 2 rfl rfl rfl rfl rfl (by decide) (by decide) (by decide)
  exact ⟨h.1, h.2.1, h.2.2.2⟩

/-- C4: a watch directory in AWAITING_RESCAN(p) whose ingestion event installs
and normalizes a new scan for page p and whose stitch validation of the page's
scans succeeds returns to ADVANCING (retry entry removed, no alert, OK line);
and a subsequent nextName call, when the greatest grammar-matching name in the
directory belongs to page p with scan at least 2 and p is not the cover,
advances to page p+1, scan 1. -/
theorem c4_rescan_success_returns_to_advancing
    (dirStr dirBase : List Char) (env : DispatchEnv) (ev : IncomingEvent)
    (files : List (List Char)) (p s2 s3 : Nat) (m pre2 : List Char)
    (hdir : ev.isDirectory = false)
    (hname : lowerStr ev.baseName = lowerStr INCOMING_NAME)
    (hren : env.renameOk = true) (hproc : env.processOk = true) (hst : env.stitchOk = true)
    (hsearch : pageScanSearch (get_retry_filename dirStr dirBase files p) = some (p, s2))
    (hlen : 2 ≤ (list_page_scans_for_page dirStr
        (get_retry_filename dirStr dirBase files p :: files) p).length)
    (hmax : lexMax? (validTifFiles (get_retry_filename dirStr dirBase files p :: files))
        = some m)
    (hparse : parseScanName m = some ⟨pre2, p, s3⟩)
    (hp1 : p ≠ 1) (hs3 : 2 ≤ s3) :
    (on_created dirStr dirBase env ev (some p) files).retryPage = none
    ∧ (on_created dirStr dirBase env ev (some p) files).alerts = 0
    ∧ (on_created dirStr dirBase env ev (some p) files).logs
        = [okLine (get_retry_filename dirStr dirBase files p)]
    ∧ get_next_filename dirBase (on_created dirStr dirBase env ev (some p) files).files
      = formatScanName pre2 (p + 1) 1 := by
  have hr : on_created dirStr dirBase env ev (some p) files
      = ⟨none, get_retry_filename dirStr dirBase files p :: files,
         [okLine (get_retry_filename dirStr dirBase files p)], 0, true, true,
         some (get_retry_filename dirStr dirBase files p)⟩ := by
    simp [on_created, dispatchTarget, hdir, hname, hren, hproc, hst, hsearch, hlen]
  refine ⟨by rw [hr], by rw [hr], by rw [hr], ?_⟩
  rw [hr]
  show get_next_filename dirBase (get_retry_filename dirStr dirBase files p :: files) = _
  unfold get_next_filename
  simp only [hmax, hparse]
  simp [hp1, Nat.not_lt.mpr hs3]

theorem c4_rescan_success_returns_to_advancing_witness :
    (on_created ("D/".toList) ("Album_Archive".toList) ⟨true, [], true, [], true⟩
        ⟨false, "incoming_scan.tif".toList⟩ (some 2)
        [("Album_P02_S02.tif".toList), ("Album_P02_S01.tif".toList)]).retryPage = none
    ∧ get_next_filename ("Album_Archive".toList)
        (on_created ("D/".toList) ("Album_Archive".toList) ⟨true, [], true, [], true⟩
          ⟨false, "incoming_scan.tif".toList⟩ (some 2)
          [("Album_P02_S02.tif".toList), ("Album_P02_S01.tif".toList)]).files
      = formatScanName ("Album".toList) 3 1 := by
  have h := c4_rescan_success_returns_to_advancing ("D/".toList) ("Album_Archive".toList)
      ⟨true, [], true, [], true⟩ ⟨false, "incoming_scan.tif".toList⟩
      [("Album_P02_S02.tif".toList), ("Album_P02_S01.tif".toList)] 2 3 3
      ("Album_P02_S03.tif".toList) ("Album".toList)
      rfl rfl rfl rfl rfl (by decide) (by decide) (by decide) (by decide) (by decide) (by decide)
  exact ⟨h.1, h.2.2.2⟩

/-- C10: for a directory awaiting a rescan of page p that holds no scan files
for page p, the retry filename is computed with scan number 1 (rendered S01)
for that same page p — it neither fails nor advances the page. -/
theorem c10_retry_filename_empty_page_scan_one
    (dirStr dirBase : List Char) (files : List (List Char)) (p : Nat)
    (h : list_page_scans_for_page dirStr files p = []) :
    get_retry_filename dirStr dirBase files p
      = formatScanName (derive_prefix_of dirBase) p 1 := by
  simp only [get_retry_filename]
  rw [h]
  rfl

theorem c10_retry_filename_empty_page_scan_one_witness :
    get_retry_filename ("D/".toList) ("Album_Archive".toList)
        [("Album_P02_S01.tif".toList)] 5
      = formatScanName (derive_prefix_of ("Album_Archive".toList)) 5 1 :=
  c10_retry_filename_empty_page_scan_one ("D/".toList) ("Album_Archive".toList)
    [("Album_P02_S01.tif".toList)] 5 (by decide)

/-! ## Terminal status lines -/

lemma isPrefixOf_append_self {α : Type} [BEq α] [LawfulBEq α] :
    ∀ (l t : List α), (l.isPrefixOf (l ++ t)) = true := by
  intro l t
  induction l with
  | nil => simp [List.isPrefixOf]
  | cons a l2 ih => simp [List.isPrefixOf, ih]

lemma endsWithStr_append (n s : List Char) : endsWithStr (n ++ s) s = true := by
  unfold endsWithStr
  rw [List.reverse_append]
  exact isPrefixOf_append_self _ _

lemma isTerminalLine_ok (n : List Char) : isTerminalLine (okLine n) = true := by
  unfold isTerminalLine okLine
  simp [endsWithStr_append]

lemma isTerminalLine_error (n : List Char) : isTerminalLine (errorLine n) = true := by
  unfold isTerminalLine errorLine
  simp [endsWithStr_append]

lemma isTerminalLine_stitchFailed (n : List Char) : isTerminalLine (stitchFailedLine n) = true := by
  unfold isTerminalLine stitchFailedLine
  simp [endsWithStr_append]

/-- C6 counterexample: an ingestion unit triggered by the sentinel file whose
install (rename) fails emits no terminal status line at all — only the
installer's "Rename failed: …" diagnostic — so the claim that every unit ends
with exactly one OK / ERROR / STITCH FAILED line fails on this input. -/
theorem c6_install_failure_has_no_terminal_line :
    ((on_created ("D/".toList) ("Album_Archive".toList)
        ⟨false, [("Rename failed: [Errno 13] Permission denied".toList)], true, [], true⟩
        ⟨false, "incoming_scan.tif".toList⟩ none
        [("Album_P02_S01.tif".toList)]).logs.countP isTerminalLine) = 0 := by
  decide

/-- C6 amended: every ingestion unit triggered by the sentinel file whose
install succeeds ends with exactly one terminal status line — OK, ERROR or
STITCH FAILED — naming the installed file (given that the normalizer's
diagnostics, which precede the ERROR line, are not themselves shaped like
terminal lines); when the install fails, the unit emits no terminal line
(see the counterexample). -/
theorem c6_amended_terminal_line_after_install
    (dirStr dirBase : List Char) (env : DispatchEnv) (ev : IncomingEvent)
    (retry : Option Nat) (files : List (List Char))
    (hdir : ev.isDirectory = false)
    (hname : lowerStr ev.baseName = lowerStr INCOMING_NAME)
    (hren : env.renameOk = true)
    (hdiags : ∀ d ∈ env.processDiags, isTerminalLine d = false) :
    (on_created dirStr dirBase env ev retry files).logs.countP isTerminalLine = 1
    ∧ ((on_created dirStr dirBase env ev retry files).logs.getLast?
          = some (okLine (dispatchTarget dirStr dirBase retry files))
        ∨ (on_created dirStr dirBase env ev retry files).logs.getLast?
          = some (errorLine (dispatchTarget dirStr dirBase retry files))
        ∨ (on_created dirStr dirBase env ev retry files).logs.getLast?
          = some (stitchFailedLine (dispatchTarget dirStr dirBase retry files))) := by
  cases hproc : env.processOk with
  | false =>
    have hr : (on_created dirStr dirBase env ev retry files).logs
        = env.processDiags ++ [errorLine (dispatchTarget dirStr dirBase retry files)] := by
      simp [on_created, hdir, hname, hren, hproc]
    rw [hr]
    constructor
    · rw [List.countP_append]
      have h0 : env.processDiags.countP isTerminalLine = 0 :=
        List.countP_eq_zero.mpr (fun d hd => by simp [hdiags d hd])
      rw [h0]
      simp [List.countP_cons, isTerminalLine_error]
    · right; left
      rw [List.getLast?_concat]
  | true =>
    cases hps : pageScanSearch (dispatchTarget dirStr dirBase retry files) with
    | none =>
      have hr : (on_created dirStr dirBase env ev retry files).logs
          = [okLine (dispatchTarget dirStr dirBase retry files)] := by
        simp [on_created, hdir, hname, hren, hproc, hps]
      rw [hr]
      exact ⟨by simp [List.countP_cons, isTerminalLine_ok], Or.inl rfl⟩
    | some q =>
      by_cases hlen : 2 ≤ (list_page_scans_for_page dirStr
          (dispatchTarget dirStr dirBase retry files :: files) q.1).length
      · cases hst : env.stitchOk with
        | true =>
          have hr : (on_created dirStr dirBase env ev retry files).logs
              = [okLine (dispatchTarget dirStr dirBase retry files)] := by
            simp [on_created, hdir, hname, hren, hproc, hps, hlen, hst]
          rw [hr]
          exact ⟨by simp [List.countP_cons, isTerminalLine_ok], Or.inl rfl⟩
        | false =>
          have hr : (on_created dirStr dirBase env ev retry files).logs
              = [stitchFailedLine (dispatchTarget dirStr dirBase retry files)] := by
            simp [on_created, hdir, hname, hren, hproc, hps, hlen, hst]
          rw [hr]
          exact ⟨by simp [List.countP_cons, isTerminalLine_stitchFailed], Or.inr (Or.inr rfl)⟩
      · have hr : (on_created dirStr dirBase env ev retry files).logs
            = [okLine (dispatchTarget dirStr dirBase retry files)] := by
          simp [on_created, hdir, hname, hren, hproc, hps, hlen]
        rw [hr]
        exact ⟨by simp [List.countP_cons, isTerminalLine_ok], Or.inl rfl⟩

theorem c6_amended_terminal_line_after_install_witness :
    (on_created ("D/".toList) ("Album_Archive".toList)
        ⟨true, [], false, [("Album_P02_S01.tif pixel mismatch; not replacing".toList)], true⟩
        ⟨false, "incoming_scan.tif".toList⟩ none []).logs.countP isTerminalLine = 1 := by
  have h := c6_amended_terminal_line_after_install ("D/".toList) ("Album_Archive".toList)
      ⟨true, [], false, [("Album_P02_S01.tif pixel mismatch; not replacing".toList)], true⟩
      ⟨false, "incoming_scan.tif".toList⟩ none [] rfl rfl rfl (by decide)
  exact h.1

/-! ## Retry-loop lemmas -/

lemma renameGo_all_transient (outcomes : Nat → FsAttempt) :
    ∀ (fuel made slept : Nat),
      (∀ i, i < fuel →
        outcomes (made + i) = FsAttempt.permissionError
        ∨ outcomes (made + i) = FsAttempt.fileNotFoundError) →
      renameGo outcomes fuel made slept = ⟨false, made + fuel, slept + fuel⟩ := by
  intro fuel
  induction fuel with
  | zero => intro made slept _; simp [renameGo]
  | succ n ih =>
    intro made slept h
    have h0 := h 0 (Nat.succ_pos n)
    rw [Nat.add_zero] at h0
    have hshift : ∀ i, i < n →
        outcomes (made + 1 + i) = FsAttempt.permissionError
        ∨ outcomes (made + 1 + i) = FsAttempt.fileNotFoundError := by
      intro i hi
      have := h (i + 1) (Nat.succ_lt_succ hi)
      rwa [show made + (i + 1) = made + 1 + i by omega] at this
    have e1 : made + 1 + n = made + (n + 1) := by omega
    have e2 : slept + 1 + n = slept + (n + 1) := by omega
    unfold renameGo
    rcases h0 with h0 | h0 <;> rw [h0] <;> rw [ih (made + 1) (slept + 1) hshift, e1, e2]

lemma renameGo_abort (outcomes : Nat → FsAttempt) :
    ∀ (k fuel made slept : Nat), k < fuel →
      (∀ i, i < k →
        outcomes (made + i) = FsAttempt.permissionError
        ∨ outcomes (made + i) = FsAttempt.fileNotFoundError) →
      outcomes (made + k) = FsAttempt.otherError →
      renameGo outcomes fuel made slept = ⟨false, made + k + 1, slept + k⟩ := by
  intro k
  induction k with
  | zero =>
    intro fuel made slept hk _ hother
    rcases fuel with _ | n
    · omega
    rw [Nat.add_zero] at hother
    unfold renameGo
    rw [hother]
    simp
  | succ j ih =>
    intro fuel made slept hk h hother
    rcases fuel with _ | n
    · omega
    have h0 := h 0 (Nat.succ_pos j)
    rw [Nat.add_zero] at h0
    have hshift : ∀ i, i < j →
        outcomes (made + 1 + i) = FsAttempt.permissionError
        ∨ outcomes (made + 1 + i) = FsAttempt.fileNotFoundError := by
      intro i hi
      have := h (i + 1) (Nat.succ_lt_succ hi)
      rwa [show made + (i + 1) = made + 1 + i by omega] at this
    have hother' : outcomes (made + 1 + j) = FsAttempt.otherError := by
      rwa [show made + (j + 1) = made + 1 + j by omega] at hother
    have e1 : made + 1 + j + 1 = made + (j + 1) + 1 := by omega
    have e2 : slept + 1 + j = slept + (j + 1) := by omega
    unfold renameGo
    rcases h0 with h0 | h0 <;> rw [h0] <;>
      rw [ih n (made + 1) (slept + 1) (by omega) hshift hother', e1, e2]

lemma replaceGo_all_permission (outcomes : Nat → FsAttempt) :
    ∀ (fuel made slept : Nat),
      (∀ i, i < fuel → outcomes (made + i) = FsAttempt.permissionError) →
      replaceGo outcomes fuel made slept = ⟨false, made + fuel, slept + fuel⟩ := by
  intro fuel
  induction fuel with
  | zero => intro made slept _; simp [replaceGo]
  | succ n ih =>
    intro made slept h
    have h0 := h 0 (Nat.succ_pos n)
    rw [Nat.add_zero] at h0
    have hshift : ∀ i, i < n → outcomes (made + 1 + i) = FsAttempt.permissionError := by
      intro i hi
      have := h (i + 1) (Nat.succ_lt_succ hi)
      rwa [show made + (i + 1) = made + 1 + i by omega] at this
    have e1 : made + 1 + n = made + (n + 1) := by omega
    have e2 : slept + 1 + n = slept + (n + 1) := by omega
    unfold replaceGo
    rw [h0, ih (made + 1) (slept + 1) hshift, e1, e2]

lemma replaceGo_abort (outcomes : Nat → FsAttempt) :
    ∀ (k fuel made slept : Nat), k < fuel →
      (∀ i, i < k → outcomes (made + i) = FsAttempt.permissionError) →
      (outcomes (made + k) = FsAttempt.fileNotFoundError
        ∨ outcomes (made + k) = FsAttempt.otherError) →
      replaceGo outcomes fuel made slept = ⟨false, made + k + 1, slept + k⟩ := by
  intro k
  induction k with
  | zero =>
    intro fuel made slept hk _ hother
    rcases fuel with _ | n
    · omega
    rw [Nat.add_zero] at hother
    unfold replaceGo
    rcases hother with h0 | h0 <;> rw [h0] <;> simp
  | succ j ih =>
    intro fuel made slept hk h hother
    rcases fuel with _ | n
    · omega
    have h0 := h 0 (Nat.succ_pos j)
    rw [Nat.add_zero] at h0
    have hshift : ∀ i, i < j → outcomes (made + 1 + i) = FsAttempt.permissionError := by
      intro i hi
      have := h (i + 1) (Nat.succ_lt_succ hi)
      rwa [show made + (i + 1) = made + 1 + i by omega] at this
    have hother' : outcomes (made + 1 + j) = FsAttempt.fileNotFoundError
        ∨ outcomes (made + 1 + j) = FsAttempt.otherError := by
      rwa [show made + (j + 1) = made + 1 + j by omega] at hother
    have e1 : made + 1 + j + 1 = made + (j + 1) + 1 := by omega
    have e2 : slept + 1 + j = slept + (j + 1) := by omega
    unfold replaceGo
    rw [h0, ih n (made + 1) (slept + 1) (by omega) hshift hother', e1, e2]

/-- C7: the installer's policy. Exhausting 30 all-transient attempts
(permission-denied or not-found, one one-second sleep each) returns failure
without raising; a first non-transient error at attempt k aborts immediately
(k+1 attempts, no further retries); the delay is 1 second and the bound 30;
and the dispatcher neither normalizes nor stitch-validates a file whose
install returned failure. -/
theorem c7_rename_with_retry_policy
    (outcomes : Nat → FsAttempt) (k : Nat)
    (dirStr dirBase : List Char) (env : DispatchEnv) (ev : IncomingEvent)
    (retry : Option Nat) (files : List (List Char)) :
    ((∀ i, i < rename_attempts_default →
        outcomes i = FsAttempt.permissionError ∨ outcomes i = FsAttempt.fileNotFoundError) →
      rename_with_retry outcomes = ⟨false, 30, 30⟩)
    ∧ (k < rename_attempts_default →
        (∀ i, i < k →
          outcomes i = FsAttempt.permissionError ∨ outcomes i = FsAttempt.fileNotFoundError) →
        outcomes k = FsAttempt.otherError →
        rename_with_retry outcomes = ⟨false, k + 1, k⟩)
    ∧ rename_delay = 1
    ∧ rename_attempts_default = 30
    ∧ (env.renameOk = false →
        (on_created dirStr dirBase env ev retry files).processCalled = false
        ∧ (on_created dirStr dirBase env ev retry files).stitchCalled = false) := by
  refine ⟨?_, ?_, rfl, rfl, ?_⟩
  · intro h
    unfold rename_with_retry
    have := renameGo_all_transient outcomes rename_attempts_default 0 0
      (fun i hi => by simpa using h i hi)
    simpa using this
  · intro hk h hother
    unfold rename_with_retry
    have := renameGo_abort outcomes k rename_attempts_default 0 0 hk
      (fun i hi => by simpa using h i hi) (by simpa using hother)
    simpa using this
  · intro hren
    unfold on_created
    split
    · exact ⟨rfl, rfl⟩
    · split
      · exact ⟨rfl, rfl⟩
      · simp [hren]

theorem c7_rename_with_retry_policy_witness :
    rename_with_retry (fun _ => FsAttempt.permissionError) = ⟨false, 30, 30⟩
    ∧ rename_with_retry (fun _ => FsAttempt.otherError) = ⟨false, 1, 0⟩
    ∧ (on_created ("D/".toList) ("Album_Archive".toList) ⟨false, [], true, [], true⟩
        ⟨false, "incoming_scan.tif".toList⟩ none []).processCalled = false := by
  refine ⟨?_, ?_, ?_⟩
  · exact (c7_rename_with_retry_policy (fun _ => FsAttempt.permissionError) 0
      ("D/".toList) ("Album_Archive".toList) ⟨false, [], true, [], true⟩
      ⟨false, "incoming_scan.tif".toList⟩ none []).1 (fun i _ => Or.inl rfl)
  · exact (c7_rename_with_retry_policy (fun _ => FsAttempt.otherError) 0
      ("D/".toList) ("Album_Archive".toList) ⟨false, [], true, [], true⟩
      ⟨false, "incoming_scan.tif".toList⟩ none []).2.1 (by decide) (by omega) rfl
  · exact ((c7_rename_with_retry_policy (fun _ => FsAttempt.otherError) 0
      ("D/".toList) ("Album_Archive".toList) ⟨false, [], true, [], true⟩
      ⟨false, "incoming_scan.tif".toList⟩ none []).2.2.2.2 rfl).1

/-- C8 counterexample: the normalizer's replace step does NOT reuse the
installer's transient-lock policy. The attempt bounds differ (10 vs 30), the
delays differ (0.5 s vs 1 s), and the retried error classes differ: a
not-found failure is retried by the installer to exhaustion (30 attempts) but
aborts the replace loop on its first attempt. -/
theorem c8_replace_policy_differs :
    replace_attempts_default = 10 ∧ rename_attempts_default = 30
    ∧ replace_delay = 1 / 2 ∧ rename_delay = 1 ∧ ¬replace_delay = rename_delay
    ∧ rename_with_retry (fun _ => FsAttempt.fileNotFoundError) = ⟨false, 30, 30⟩
    ∧ (process_tiff_in_place
        ⟨false, ⟨true, true, true⟩, false, 99, some 0, fun _ => FsAttempt.fileNotFoundError⟩
        7).replaceAttempts = 1
    ∧ (process_tiff_in_place
        ⟨false, ⟨true, true, true⟩, false, 99, some 0, fun _ => FsAttempt.fileNotFoundError⟩
        7).ok = false := by
  refine ⟨rfl, rfl, rfl, rfl, by norm_num [replace_delay, rename_delay], by decide, rfl, rfl⟩

/-- C8 amended: the replace step of process_tiff_in_place is retried under a
bounded transient-lock policy of the same shape as the installer's but with
its own parameters: up to 10 attempts at 0.5-second intervals, retrying only
on permission-denied; a not-found or any other error aborts immediately, and
exhaustion returns failure. -/
theorem c8_amended_replace_policy
    (env : TiffEnv) (content k : Nat)
    (hneeds : tiff_needs_conversion env.inspectFails env.attrs = true)
    (hconv : env.convertRaises = false)
    (hcmp : validate_pixels env.compareResult = true) :
    ((∀ i, i < replace_attempts_default →
        env.replaceOutcomes i = FsAttempt.permissionError) →
      (process_tiff_in_place env content).ok = false
      ∧ (process_tiff_in_place env content).replaceAttempts = 10
      ∧ (process_tiff_in_place env content).replaceSleeps = 10)
    ∧ (k < replace_attempts_default →
        (∀ i, i < k → env.replaceOutcomes i = FsAttempt.permissionError) →
        (env.replaceOutcomes k = FsAttempt.fileNotFoundError
          ∨ env.replaceOutcomes k = FsAttempt.otherError) →
        (process_tiff_in_place env content).ok = false
        ∧ (process_tiff_in_place env content).replaceAttempts = k + 1
        ∧ (process_tiff_in_place env content).replaceSleeps = k)
    ∧ replace_delay = 1 / 2
    ∧ replace_attempts_default = 10 := by
  refine ⟨?_, ?_, rfl, rfl⟩
  · intro h
    have hreplace : replaceGo env.replaceOutcomes replace_attempts_default 0 0
        = ⟨false, 10, 10⟩ := by
      have := replaceGo_all_permission env.replaceOutcomes replace_attempts_default 0 0
        (fun i hi => by simpa using h i hi)
      simpa using this
    simp [process_tiff_in_place, hneeds, hconv, hcmp, hreplace]
  · intro hk h hother
    have hreplace : replaceGo env.replaceOutcomes replace_attempts_default 0 0
        = ⟨false, k + 1, k⟩ := by
      have := replaceGo_abort env.replaceOutcomes k replace_attempts_default 0 0 hk
        (fun i hi => by simpa using h i hi) (by simpa using hother)
      simpa using this
    simp [process_tiff_in_place, hneeds, hconv, hcmp, hreplace]

theorem c8_amended_replace_policy_witness :
    (process_tiff_in_place
        ⟨false, ⟨true, true, true⟩, false, 99, some 0, fun _ => FsAttempt.permissionError⟩
        7).ok = false
    ∧ (process_tiff_in_place
        ⟨false, ⟨true, true, true⟩, false, 99, some 0, fun _ => FsAttempt.permissionError⟩
        7).replaceAttempts = 10
    ∧ (process_tiff_in_place
        ⟨false, ⟨true, true, true⟩, false, 99, some 0, fun _ => FsAttempt.permissionError⟩
        7).replaceSleeps = 10 := by
  have h := c8_amended_replace_policy
      ⟨false, ⟨true, true, true⟩, false, 99, some 0, fun _ => FsAttempt.permissionError⟩
      7 0 rfl rfl rfl
  exact h.1 (fun i _ => rfl)

/-- C2: whenever normalization actually converts (the file needs conversion
and the conversion tool completes) and the pixel comparison reports a nonzero
difference count, process_tiff_in_place returns failure, the temporary
converted file is deleted, and the original file is neither replaced nor
changed. -/
theorem c2_pixel_mismatch_leaves_original
    (env : TiffEnv) (content n : Nat)
    (hneeds : tiff_needs_conversion env.inspectFails env.attrs = true)
    (hconv : env.convertRaises = false)
    (hcmp : env.compareResult = some n) (hn : n ≠ 0) :
    (process_tiff_in_place env content).ok = false
    ∧ (process_tiff_in_place env content).finalContent = content
    ∧ (process_tiff_in_place env content).writes = 0
    ∧ (process_tiff_in_place env content).temp = TempFate.deleted := by
  have hval : validate_pixels env.compareResult = false := by
    rw [hcmp]
    unfold validate_pixels
    simpa using hn
  simp [process_tiff_in_place, hneeds, hconv, hval]

theorem c2_pixel_mismatch_leaves_original_witness :
    (process_tiff_in_place
        ⟨false, ⟨true, true, true⟩, false, 99, some 3, fun _ => FsAttempt.succeeds⟩
        7).ok = false
    ∧ (process_tiff_in_place
        ⟨false, ⟨true, true, true⟩, false, 99, some 3, fun _ => FsAttempt.succeeds⟩
        7).finalContent = 7
    ∧ (process_tiff_in_place
        ⟨false, ⟨true, true, true⟩, false, 99, some 3, fun _ => FsAttempt.succeeds⟩
        7).temp = TempFate.deleted := by
  have h := c2_pixel_mismatch_leaves_original
      ⟨false, ⟨true, true, true⟩, false, 99, some 3, fun _ => FsAttempt.succeeds⟩
      7 3 rfl rfl rfl (by omega)
  exact ⟨h.1, h.2.1, h.2.2.2⟩

/-- C9: on a file that is already alpha-free with LZW compression and the
horizontal-differencing predictor (and whose inspection succeeds),
tiff_needs_conversion is false, so process_tiff_in_place returns success
without creating a temporary file or writing the original; running it a
second time on the resulting file again succeeds with no write. -/
theorem c9_normalize_idempotent
    (env : TiffEnv) (content : Nat)
    (h1 : env.inspectFails = false) (h2 : env.attrs.hasAlpha = false)
    (h3 : env.attrs.compressionLzw = true) (h4 : env.attrs.predictorHorizontal = true) :
    tiff_needs_conversion env.inspectFails env.attrs = false
    ∧ (process_tiff_in_place env content).ok = true
    ∧ (process_tiff_in_place env content).writes = 0
    ∧ (process_tiff_in_place env content).finalContent = content
    ∧ (process_tiff_in_place env content).temp = TempFate.notCreated
    ∧ (process_tiff_in_place env (process_tiff_in_place env content).finalContent).ok = true
    ∧ (process_tiff_in_place env (process_tiff_in_place env content).finalContent).writes = 0 := by
  have hneeds : tiff_needs_conversion env.inspectFails env.attrs = false := by
    simp [tiff_needs_conversion, h1, h2, h3, h4]
  refine ⟨hneeds, ?_⟩
  simp [process_tiff_in_place, hneeds]

theorem c9_normalize_idempotent_witness :
    (process_tiff_in_place
        ⟨false, ⟨false, true, true⟩, false, 99, some 0, fun _ => FsAttempt.succeeds⟩
        7).ok = true
    ∧ (process_tiff_in_place
        ⟨false, ⟨false, true, true⟩, false, 99, some 0, fun _ => FsAttempt.succeeds⟩
        7).writes = 0
    ∧ (process_tiff_in_place
        ⟨false, ⟨false, true, true⟩, false, 99, some 0, fun _ => FsAttempt.succeeds⟩
        ((process_tiff_in_place
          ⟨false, ⟨false, true, true⟩, false, 99, some 0, fun _ => FsAttempt.succeeds⟩
          7).finalContent)).writes = 0 := by
  have h := c9_normalize_idempotent
      ⟨false, ⟨false, true, true⟩, false, 99, some 0, fun _ => FsAttempt.succeeds⟩
      7 rfl rfl rfl rfl
  exact ⟨h.2.1, h.2.2.1, h.2.2.2.2.2.2⟩

/-- C1: the watcher's validate_stitch ignores the stitcher's side-channel
warning. With a stitcher whose every configuration returns a nonzero-size
panorama while warning that not all inputs were included (a partial
panorama), validate_stitch on two scan files returns success, and the full
ingestion unit for the second scan of page 2 logs the OK line — not STITCH
FAILED as the specification requires. The repository's own batch validator
(stitch_oversized_pages_validate.py), embedded as validate_stitch_batch,
classifies the very same stitcher behaviour as a partial-panorama failure. -/
theorem c1_incomplete_panorama_accepted_by_watcher :
    validate_stitch incompleteStitchOracle [("a.tif".toList), ("b.tif".toList)] = true
    ∧ validate_stitch_batch incompleteStitchOracle = BatchOutcome.panoramaIncomplete
    ∧ (on_created ("D/".toList) ("Album_Archive".toList)
        ⟨true, [], true, [],
          validate_stitch incompleteStitchOracle
            (list_page_scans_for_page ("D/".toList)
              (("Album_P02_S02.tif".toList) :: [("Album_P02_S01.tif".toList)]) 2)⟩
        ⟨false, "incoming_scan.tif".toList⟩ none [("Album_P02_S01.tif".toList)]).logs
      = [okLine ("Album_P02_S02.tif".toList)]
    ∧ (on_created ("D/".toList) ("Album_Archive".toList)
        ⟨true, [], true, [],
          validate_stitch incompleteStitchOracle
            (list_page_scans_for_page ("D/".toList)
              (("Album_P02_S02.tif".toList) :: [("Album_P02_S01.tif".toList)]) 2)⟩
        ⟨false, "incoming_scan.tif".toList⟩ none [("Album_P02_S01.tif".toList)]).alerts
      = 0 := by
  refine ⟨rfl, rfl, ?_, ?_⟩ <;> decide
